import Mathlib

set_option autoImplicit false

/-!
Verification of the Flatcar Linux update-operator reconciliation engine
(package `operator`, file `operator.go`). Node labels and annotations are
embedded as association lists mirroring Go `map[string]string`; the five
reconciliation phases are embedded as functions on lists of nodes. Since the
engine is the single writer, the per-name read-modify-write performed by
`k8sutil.UpdateNodeRetry` is embedded as an in-place transformation of the
node in the list.
-/

namespace FLUO

/-- A string-keyed map (embedding of Go `map[string]string`) as an
association list. -/
abbrev SMap := List (String × String)

/-- Map lookup: `v, ok := m[k]` (`none` when the key is absent). -/
def aget : SMap → String → Option String
  | [], _ => none
  | p :: m, k => if p.1 = k then some p.2 else aget m k

/-- Map deletion: `delete(m, k)`. -/
def adel : SMap → String → SMap
  | [], _ => []
  | p :: m, k => if p.1 = k then adel m k else p :: adel m k

/-- Map assignment: `m[k] = v`. -/
def aset : SMap → String → String → SMap
  | [], k, v => [(k, v)]
  | p :: m, k, v => if p.1 = k then (k, v) :: m else p :: aset m k v

/-- `for _, a := range ks { delete(m, a) }`. -/
def delAll (m : SMap) (ks : List String) : SMap := ks.foldl adel m

/-- Embedding of the node object: the operator observes and edits its name,
labels and annotations (`corev1.Node`). -/
structure Node where
  name : String
  labels : SMap
  annotations : SMap
deriving Repr, DecidableEq

/-- Keys from `pkg/constants` (the exact key strings are irrelevant; only
their distinctness matters). -/
def annOkToReboot : String := "ok-to-reboot"

def annRebootNeeded : String := "reboot-needed"

def annRebootInProgress : String := "reboot-in-progress"

def annRebootPaused : String := "reboot-paused"

def labelBeforeReboot : String := "before-reboot"

def labelAfterReboot : String := "after-reboot"

/-- `fields.Set` lookup: a missing key reads as the empty string. -/
def fieldGet (m : SMap) (k : String) : String := (aget m k).getD ""

/-- `rebootableSelector`: `reboot-needed==true, reboot-paused!=true,
ok-to-reboot!=true, reboot-in-progress!=true`, matched against the node's
annotations. -/
def rebootableSelector (m : SMap) : Bool :=
  (fieldGet m annRebootNeeded == "true") &&
  !(fieldGet m annRebootPaused == "true") &&
  !(fieldGet m annOkToReboot == "true") &&
  !(fieldGet m annRebootInProgress == "true")

/-- `stillRebootingSelector`: `ok-to-reboot=true` and `reboot-needed=true`
on the node's annotations. -/
def stillRebootingSelector (m : SMap) : Bool :=
  (fieldGet m annOkToReboot == "true") && (fieldGet m annRebootNeeded == "true")

/-- `justRebootedSelector`: `ok-to-reboot=true`, `reboot-needed=false`,
`reboot-in-progress=false` on the node's annotations. -/
def justRebootedSelector (m : SMap) : Bool :=
  (fieldGet m annOkToReboot == "true") &&
  (fieldGet m annRebootNeeded == "false") &&
  (fieldGet m annRebootInProgress == "false")

/-- A `labels.Requirement` `key In {true}`: the key is present with value
exactly `"true"`. -/
def labelIsTrue (m : SMap) (l : String) : Bool := aget m l == some "true"

/-- `beforeRebootReq`: label `before-reboot` in `{true}`. -/
def beforeRebootReq (n : Node) : Bool := labelIsTrue n.labels labelBeforeReboot

/-- `afterRebootReq`: label `after-reboot` in `{true}`. -/
def afterRebootReq (n : Node) : Bool := labelIsTrue n.labels labelAfterReboot

/-- `notBeforeRebootReq`: label `before-reboot` not in `{true}`. -/
def notBeforeRebootReq (n : Node) : Bool := !(beforeRebootReq n)

/-- `hasAllAnnotations`: every key of `anns` is present on the node with
value `"true"`. -/
def hasAllAnnotations (n : Node) (anns : List String) : Bool :=
  anns.all (fun a => aget n.annotations a == some "true")

/-- Modelled from the spec: the weekly reboot-window component
(`timeutil.Periodic` from the locksmith dependency, not part of this
repository). `previousStart`/`previousEnd` give the start and end instants
of the most recently opened window for a given current time. -/
structure Periodic where
  previousStart : Int → Int
  previousEnd : Int → Int

/-- The `Kontroller` fields the reconciliation engine reads. -/
structure Kontroller where
  beforeRebootAnnotations : List String
  afterRebootAnnotations : List String
  rebootWindow : Option Periodic
  maxRebootingNodes : Int

/-- `insideRebootWindow`: `true` when no window is configured, otherwise
whether `now` is before the end of the most recently opened window. -/
def insideRebootWindow (k : Kontroller) (now : Int) : Bool :=
  match k.rebootWindow with
  | none => true
  | some w => decide (now < w.previousEnd now)

/-- The mutation closure of `cleanupState`: if the `before-reboot` label key
is absent, or the node still matches `rebootableSelector`, leave the node
alone; otherwise delete the label and every configured before-reboot
annotation key. -/
def cleanupStateClosure (bAnns : List String) (n : Node) : Node :=
  if (aget n.labels labelBeforeReboot).isNone then n
  else if rebootableSelector n.annotations then n
  else { n with labels := adel n.labels labelBeforeReboot,
                annotations := delAll n.annotations bAnns }

/-- Phase A, `cleanupState`: apply the cleanup closure to every listed node. -/
def cleanupState (k : Kontroller) (s : List Node) : List Node :=
  s.map (cleanupStateClosure k.beforeRebootAnnotations)

/-- `checkRebootOptions`. -/
structure CheckRebootOptions where
  label : String
  annotations : List String
  okToReboot : String

/-- The mutation closure of `checkReboot`: delete the label, delete the
given annotation keys, set `ok-to-reboot` to the given value. -/
def checkRebootClosure (opt : CheckRebootOptions) (n : Node) : Node :=
  { n with
    labels := adel n.labels opt.label,
    annotations :=
      aset (delAll n.annotations opt.annotations) annOkToReboot opt.okToReboot }

/-- `checkReboot`: for every node whose label matches the requirement and
whose configured annotations are all `"true"`, apply the closure. -/
def checkReboot (opt : CheckRebootOptions) (s : List Node) : List Node :=
  s.map fun n =>
    if labelIsTrue n.labels opt.label && hasAllAnnotations n opt.annotations
    then checkRebootClosure opt n else n

/-- Phase D, `checkBeforeReboot`: `checkReboot` on the `before-reboot` label
with the before-reboot annotations, setting `ok-to-reboot` to `"true"`. -/
def checkBeforeReboot (k : Kontroller) : List Node → List Node :=
  checkReboot ⟨labelBeforeReboot, k.beforeRebootAnnotations, "true"⟩

/-- Phase B, `checkAfterReboot`: `checkReboot` on the `after-reboot` label
with the after-reboot annotations, setting `ok-to-reboot` to `"false"`. -/
def checkAfterReboot (k : Kontroller) : List Node → List Node :=
  checkReboot ⟨labelAfterReboot, k.afterRebootAnnotations, "false"⟩

/-- The mutation closure of `mark`: delete the given annotation keys and
set the given label to `"true"`. -/
def markClosure (lbl : String) (anns : List String) (n : Node) : Node :=
  { n with annotations := delAll n.annotations anns,
           labels := aset n.labels lbl "true" }

/-- Phase C, `markAfterReboot`: of the nodes whose `after-reboot` label is
not `"true"` (the server-side list filter), mark every one matching
`justRebootedSelector` with the `after-reboot` label, deleting the
after-reboot annotations. -/
def markAfterReboot (k : Kontroller) (s : List Node) : List Node :=
  s.map fun n =>
    if !(labelIsTrue n.labels labelAfterReboot) && justRebootedSelector n.annotations
    then markClosure labelAfterReboot k.afterRebootAnnotations n else n

/-- `k8sutil.FilterNodesByAnnotation`. -/
def filterNodesByAnnSel (s : List Node) (sel : SMap → Bool) : List Node :=
  s.filter (fun n => sel n.annotations)

/-- `k8sutil.FilterNodesByRequirement`. -/
def filterNodesByRequirement (s : List Node) (req : Node → Bool) : List Node :=
  s.filter req

/-- `remainingRebootingCapacity`: `maxRebootingNodes` minus the length of
the concatenation of the still-rebooting, before-reboot-labelled and
after-reboot-labelled node lists. -/
def remainingRebootingCapacity (k : Kontroller) (s : List Node) : Int :=
  let rebootingNodes :=
    filterNodesByAnnSel s stillRebootingSelector ++
    filterNodesByRequirement s beforeRebootReq ++
    filterNodesByRequirement s afterRebootReq
  k.maxRebootingNodes - rebootingNodes.length

/-- `nodesRequiringReboot`: nodes matching `rebootableSelector` and
`notBeforeRebootReq`. -/
def nodesRequiringReboot (s : List Node) : List Node :=
  filterNodesByRequirement (filterNodesByAnnSel s rebootableSelector)
    notBeforeRebootReq

/-- `rebootableNodes`: the nodes requiring a reboot, truncated to the
remaining rebooting capacity (`for i := 0; i < remainingCapacity && i <
len(nodesRequiringReboot); i++`; a non-positive capacity chooses none). -/
def rebootableNodes (k : Kontroller) (s : List Node) : List Node :=
  (nodesRequiringReboot s).take (remainingRebootingCapacity k s).toNat

/-- The candidate predicate of `rebootableNodes`, pointwise:
`rebootableSelector` on the annotations and `notBeforeRebootReq` on the
labels. -/
def candidateForReboot (n : Node) : Bool :=
  rebootableSelector n.annotations && notBeforeRebootReq n

/-- Apply `f` to the first `c` nodes of the list satisfying `p`, in list
order, leaving every other node in place. Since node names are unique
store keys, this is the per-name `mark` loop of `markBeforeReboot` run on
`rebootableNodes` (the first `c` candidates in list order). -/
def markFirstCandidates (p : Node → Bool) (f : Node → Node) :
    Nat → List Node → List Node
  | _, [] => []
  | 0, s => s
  | c + 1, n :: s =>
    if p n then f n :: markFirstCandidates p f c s
    else n :: markFirstCandidates p f (c + 1) s

/-- Phase E, `markBeforeReboot`: outside the reboot window do nothing;
otherwise mark up to `remainingRebootingCapacity` candidate nodes with the
`before-reboot` label, deleting the before-reboot annotations. -/
def markBeforeReboot (k : Kontroller) (now : Int) (s : List Node) : List Node :=
  if !insideRebootWindow k now then s
  else
    markFirstCandidates candidateForReboot
      (markClosure labelBeforeReboot k.beforeRebootAnnotations)
      (remainingRebootingCapacity k s).toNat s

/-- `rebootableNodes` with its run-time fault: before the truncation loop
the code runs `make([]*corev1.Node, 0, remainingCapacity)`, and Go's `make`
panics when the capacity argument is negative. `none` is that panic; for a
non-negative capacity the chosen prefix of the candidate list is returned. -/
def rebootableNodesGo (k : Kontroller) (s : List Node) : Option (List Node) :=
  if remainingRebootingCapacity k s < 0 then none
  else some ((nodesRequiringReboot s).take (remainingRebootingCapacity k s).toNat)

/-- Phase E with the `rebootableNodes` fault: outside the reboot window the
function returns (without error) before reaching the `make`; inside it, a
negative remaining capacity panics (`none`) before any node is modified. -/
def markBeforeRebootGo (k : Kontroller) (now : Int) (s : List Node) :
    Option (List Node) :=
  if !insideRebootWindow k now then some s
  else
    match rebootableNodesGo k s with
    | none => none
    | some _ => some (markFirstCandidates candidateForReboot
        (markClosure labelBeforeReboot k.beforeRebootAnnotations)
        (remainingRebootingCapacity k s).toNat s)

/-- One engine tick, `process`: phases A, B, C, D, E in order. -/
def process (k : Kontroller) (now : Int) (s : List Node) : List Node :=
  markBeforeReboot k now
    (checkBeforeReboot k
      (markAfterReboot k
        (checkAfterReboot k
          (cleanupState k s))))

/-- The size of the *rebooting set* counted as the code counts it: the three
filtered lists concatenated, so a node matching several filters is counted
once per filter. -/
def rebootingCountMultiset (s : List Node) : Nat :=
  (filterNodesByAnnSel s stillRebootingSelector).length +
  (filterNodesByRequirement s beforeRebootReq).length +
  (filterNodesByRequirement s afterRebootReq).length

/-- The size of the *rebooting set* counted as a set union: nodes that are
still-rebooting, before-reboot-labelled or after-reboot-labelled, each
counted once. -/
def rebootingUnionCount (s : List Node) : Nat :=
  s.countP fun n =>
    stillRebootingSelector n.annotations || beforeRebootReq n || afterRebootReq n

/-! ### Fetched nodes with possibly-nil maps

Go distinguishes a nil map from an empty one: reading and deleting are safe
on a nil map, assigning faults. The mutation closures run on freshly fetched
node objects whose maps may be nil. -/

/-- A node as fetched from the store; either metadata map may be nil. -/
structure GoNode where
  name : String
  labels : Option SMap
  annotations : Option SMap
deriving Repr, DecidableEq

/-- Go `delete(m, k)` on a possibly-nil map: a no-op on nil. -/
def odel (m : Option SMap) (k : String) : Option SMap :=
  m.map (fun mm => adel mm k)

/-- Delete each key of `ks` from a possibly-nil map. -/
def odelAll (m : Option SMap) (ks : List String) : Option SMap := ks.foldl odel m

/-- The `checkReboot` mutation closure on a fetched node: the label and
annotation deletions are no-ops on nil maps, but the unconditional
`node.Annotations[ok-to-reboot] = value` assignment faults (`none`) when
the annotation map is nil. -/
def checkRebootClosureGo (opt : CheckRebootOptions) (n : GoNode) : Option GoNode :=
  let lbs := odel n.labels opt.label
  match odelAll n.annotations opt.annotations with
  | none => none
  | some m => some { n with
      labels := lbs,
      annotations := some (aset m annOkToReboot opt.okToReboot) }

/-- The `mark` mutation closure on a fetched node: the annotation deletions
are no-ops on a nil map, but the unconditional `node.Labels[label] = "true"`
assignment faults (`none`) when the label map is nil. -/
def markClosureGo (lbl : String) (anns : List String) (n : GoNode) : Option GoNode :=
  let as2 := odelAll n.annotations anns
  match n.labels with
  | none => none
  | some lm => some { n with annotations := as2, labels := some (aset lm lbl "true") }

/-! ### Concrete nodes and configurations used as witnesses -/

/-- A bare rebootable node: annotation `reboot-needed=true`, nothing else. -/
def nodeRebootable : Node := ⟨"a", [], [(annRebootNeeded, "true")]⟩

/-- A node carrying both operator labels while also matching
`stillRebootingSelector`. -/
def nodeBothLabelsStill : Node :=
  ⟨"n0", [(labelBeforeReboot, "true"), (labelAfterReboot, "true")],
   [(annOkToReboot, "true"), (annRebootNeeded, "true")]⟩

/-- A just-rebooted node: `ok-to-reboot=true`, `reboot-needed=false`,
`reboot-in-progress=false`, no labels. -/
def nodeJustRebooted : Node :=
  ⟨"a", [],
   [(annOkToReboot, "true"), (annRebootNeeded, "false"),
    (annRebootInProgress, "false")]⟩

/-- An idle node: annotation `reboot-needed=false`, nothing else. -/
def nodeIdle : Node := ⟨"a", [], [(annRebootNeeded, "false")]⟩

/-- A node carrying only the `before-reboot=true` label. -/
def nodeBeforeLabelled : Node := ⟨"a", [(labelBeforeReboot, "true")], []⟩

/-- A node carrying only the `after-reboot=true` label. -/
def nodeAfterLabelled : Node := ⟨"b", [(labelAfterReboot, "true")], []⟩

/-- A node with `before-reboot=true` whose before-reboot hook annotation
`h1` is `true` and which is still rebootable. -/
def nodeReadyBefore : Node :=
  ⟨"a", [(labelBeforeReboot, "true")], [(annRebootNeeded, "true"), ("h1", "true")]⟩

/-- A still-rebooting node: `ok-to-reboot=true` and `reboot-needed=true`,
no labels. -/
def nodeStillRebooting : Node :=
  ⟨"b", [], [(annOkToReboot, "true"), (annRebootNeeded, "true")]⟩

/-- A node with `before-reboot=true` and a stale hook annotation whose
`reboot-needed` flipped back to `false`. -/
def nodeRebootCancelled : Node :=
  ⟨"a", [(labelBeforeReboot, "true")],
   [(annRebootNeeded, "false"), ("h1", "true"), (annOkToReboot, "x")]⟩

/-- A configuration with no hook annotations, capacity 1, no window. -/
def kNoHooks : Kontroller := ⟨[], [], none, 1⟩

/-- A configuration with hook annotations `h1` (before) and `g1` (after). -/
def kWithHooks : Kontroller := ⟨["h1"], ["g1"], none, 1⟩

/-- A configuration with capacity 3 and no hooks. -/
def kMax3 : Kontroller := ⟨[], [], none, 3⟩

/-- A reboot window whose most recent occurrence always ends at time 0. -/
def windowZero : Periodic := ⟨fun _ => 0, fun _ => 0⟩

/-- `kWithHooks` with the `windowZero` reboot window configured. -/
def kWindowed : Kontroller := ⟨["h1"], ["g1"], some windowZero, 1⟩

/-- A fetched node with nil label and annotation maps. -/
def gnodeNil : GoNode := ⟨"a", none, none⟩

/-- A fetched node with present (empty) label and annotation maps. -/
def gnodeFull : GoNode := ⟨"a", some [], some []⟩

/-- The `checkRebootOptions` of phase D with no hook annotations. -/
def optBefore : CheckRebootOptions := ⟨labelBeforeReboot, [], "true"⟩

/-! ### Per-node view of phases B, C, D (for the idempotence analysis) -/

/-- The per-node action of phase B (`checkAfterReboot`). -/
def checkAfterStep (k : Kontroller) (n : Node) : Node :=
  if labelIsTrue n.labels labelAfterReboot && hasAllAnnotations n k.afterRebootAnnotations
  then checkRebootClosure ⟨labelAfterReboot, k.afterRebootAnnotations, "false"⟩ n else n

/-- The per-node action of phase C (`markAfterReboot`). -/
def markAfterStep (k : Kontroller) (n : Node) : Node :=
  if !(labelIsTrue n.labels labelAfterReboot) && justRebootedSelector n.annotations
  then markClosure labelAfterReboot k.afterRebootAnnotations n else n

/-- The per-node action of phase D (`checkBeforeReboot`). -/
def checkBeforeStep (k : Kontroller) (n : Node) : Node :=
  if labelIsTrue n.labels labelBeforeReboot && hasAllAnnotations n k.beforeRebootAnnotations
  then checkRebootClosure ⟨labelBeforeReboot, k.beforeRebootAnnotations, "true"⟩ n else n

/-- The composed per-node action of phases A, B, C, D of one tick. -/
def tickStepABCD (k : Kontroller) (n : Node) : Node :=
  checkBeforeStep k (markAfterStep k (checkAfterStep k
    (cleanupStateClosure k.beforeRebootAnnotations n)))

/-- A node on which every per-node phase guard is closed: a
before-reboot-labelled node is still rebootable (phase A skips it), a
labelled node's hook gate is not yet satisfied (phases B and D skip it),
and an unlabelled node is not just-rebooted (phase C skips it). -/
def phaseFixed (k : Kontroller) (m : Node) : Prop :=
  ((aget m.labels labelBeforeReboot).isSome = true →
    rebootableSelector m.annotations = true) ∧
  (labelIsTrue m.labels labelBeforeReboot = true →
    hasAllAnnotations m k.beforeRebootAnnotations = false) ∧
  (labelIsTrue m.labels labelAfterReboot = true →
    hasAllAnnotations m k.afterRebootAnnotations = false) ∧
  (labelIsTrue m.labels labelAfterReboot = false →
    justRebootedSelector m.annotations = false)

/-! ### Helper lemmas -/

@[simp] theorem aget_nil (k : String) : aget [] k = none := rfl

@[simp] theorem aget_adel (m : SMap) (k k' : String) :
    aget (adel m k) k' = if k' = k then none else aget m k' := by
  induction m with
  | nil => simp [adel]
  | cons p m ih =>
    by_cases h : p.1 = k
    · by_cases h' : p.1 = k' <;> simp_all [adel, aget]
    · by_cases h' : p.1 = k' <;> simp_all [adel, aget]

@[simp] theorem aget_aset (m : SMap) (k v k' : String) :
    aget (aset m k v) k' = if k' = k then some v else aget m k' := by
  induction m with
  | nil =>
    by_cases h : k' = k
    · simp_all [aset, aget]
    · have h2 : ¬k = k' := fun hh => h hh.symm
      simp_all [aset, aget]
  | cons p m ih =>
    by_cases h : p.1 = k
    · by_cases h' : k' = k
      · simp_all [aset, aget]
      · have h2 : ¬k = k' := fun hh => h' hh.symm
        simp_all [aset, aget]
    · by_cases h' : p.1 = k' <;> by_cases h'' : k' = k <;> simp_all [aset, aget]

@[simp] theorem aget_delAll (m : SMap) (ks : List String) (k' : String) :
    aget (delAll m ks) k' = if k' ∈ ks then none else aget m k' := by
  induction ks generalizing m with
  | nil => simp [delAll]
  | cons a ks ih =>
    show aget (delAll (adel m a) ks) k' = _
    rw [ih]
    by_cases h : k' ∈ ks <;> by_cases h' : k' = a <;> simp_all

@[simp] theorem label_keys_ne : (labelAfterReboot = labelBeforeReboot) = False := by
  simp [labelAfterReboot, labelBeforeReboot]

@[simp] theorem label_keys_ne' : (labelBeforeReboot = labelAfterReboot) = False := by
  simp [labelAfterReboot, labelBeforeReboot]

@[simp] theorem ok_ne_needed : (annOkToReboot = annRebootNeeded) = False := by
  simp [annOkToReboot, annRebootNeeded]

@[simp] theorem needed_ne_ok : (annRebootNeeded = annOkToReboot) = False := by
  simp [annOkToReboot, annRebootNeeded]

@[simp] theorem ok_ne_paused : (annOkToReboot = annRebootPaused) = False := by
  simp [annOkToReboot, annRebootPaused]

@[simp] theorem paused_ne_ok : (annRebootPaused = annOkToReboot) = False := by
  simp [annOkToReboot, annRebootPaused]

@[simp] theorem ok_ne_inprogress : (annOkToReboot = annRebootInProgress) = False := by
  simp [annOkToReboot, annRebootInProgress]

@[simp] theorem inprogress_ne_ok : (annRebootInProgress = annOkToReboot) = False := by
  simp [annOkToReboot, annRebootInProgress]

@[simp] theorem fieldGet_adel (m : SMap) (k k' : String) :
    fieldGet (adel m k) k' = if k' = k then "" else fieldGet m k' := by
  by_cases h : k' = k <;> simp [fieldGet, h]

@[simp] theorem fieldGet_aset (m : SMap) (k v k' : String) :
    fieldGet (aset m k v) k' = if k' = k then v else fieldGet m k' := by
  by_cases h : k' = k <;> simp [fieldGet, h]

@[simp] theorem fieldGet_delAll (m : SMap) (ks : List String) (k' : String) :
    fieldGet (delAll m ks) k' = if k' ∈ ks then "" else fieldGet m k' := by
  by_cases h : k' ∈ ks <;> simp [fieldGet, h]

@[simp] theorem markClosure_name (lbl : String) (anns : List String) (n : Node) :
    (markClosure lbl anns n).name = n.name := rfl

@[simp] theorem markClosure_labels (lbl : String) (anns : List String) (n : Node) :
    (markClosure lbl anns n).labels = aset n.labels lbl "true" := rfl

@[simp] theorem markClosure_annotations (lbl : String) (anns : List String) (n : Node) :
    (markClosure lbl anns n).annotations = delAll n.annotations anns := rfl

@[simp] theorem checkRebootClosure_labels (opt : CheckRebootOptions) (n : Node) :
    (checkRebootClosure opt n).labels = adel n.labels opt.label := rfl

@[simp] theorem checkRebootClosure_annotations (opt : CheckRebootOptions) (n : Node) :
    (checkRebootClosure opt n).annotations =
      aset (delAll n.annotations opt.annotations) annOkToReboot opt.okToReboot := rfl

/-- `markFirstCandidates` with a zero budget changes nothing. -/
theorem markFirstCandidates_zero (p : Node → Bool) (f : Node → Node) (s : List Node) :
    markFirstCandidates p f 0 s = s := by
  cases s <;> rfl

/-- `markFirstCandidates` on a list with no candidate changes nothing. -/
theorem markFirstCandidates_no_candidate (p : Node → Bool) (f : Node → Node)
    (c : Nat) (s : List Node) (h : ∀ n ∈ s, p n = false) :
    markFirstCandidates p f c s = s := by
  induction s generalizing c with
  | nil => cases c <;> rfl
  | cons n s ih =>
    cases c with
    | zero => rfl
    | succ c =>
      have hn : p n = false := h n (by simp)
      simp only [markFirstCandidates, hn, Bool.false_eq_true, if_false, List.cons.injEq]
      exact ⟨trivial, ih (c + 1) (fun m hm => h m (by simp [hm]))⟩

/-- Every member of `markFirstCandidates p f c s` is a member of `s` or the
image under `f` of a member of `s` satisfying `p`. -/
theorem mem_markFirstCandidates (p : Node → Bool) (f : Node → Node)
    (c : Nat) (s : List Node) (n' : Node) (h : n' ∈ markFirstCandidates p f c s) :
    (n' ∈ s) ∨ (∃ n ∈ s, p n = true ∧ n' = f n) := by
  induction s generalizing c with
  | nil => cases c <;> simp [markFirstCandidates] at h
  | cons n s ih =>
    cases c with
    | zero => exact Or.inl (by simpa [markFirstCandidates] using h)
    | succ c =>
      by_cases hp : p n = true
      · simp only [markFirstCandidates, hp, if_true, List.mem_cons] at h
        rcases h with h | h
        · exact Or.inr ⟨n, by simp, hp, h⟩
        · rcases ih c h with h' | ⟨m, hm, hpm, hfm⟩
          · exact Or.inl (by simp [h'])
          · exact Or.inr ⟨m, by simp [hm], hpm, hfm⟩
      · simp only [markFirstCandidates, hp, if_false] at h
        rcases List.mem_cons.mp h with h' | h'
        · exact Or.inl (by simp [h'])
        · rcases ih (c + 1) h' with h'' | ⟨m, hm, hpm, hfm⟩
          · exact Or.inl (by simp [h''])
          · exact Or.inr ⟨m, by simp [hm], hpm, hfm⟩

/-- Nodes not satisfying `p` keep their position under `markFirstCandidates`. -/
theorem markFirstCandidates_getElem_of_not (p : Node → Bool) (f : Node → Node)
    (c : Nat) (s : List Node) (i : Nat) (n : Node)
    (hn : s[i]? = some n) (hp : p n = false) :
    (markFirstCandidates p f c s)[i]? = some n := by
  induction s generalizing c i with
  | nil => simp at hn
  | cons m s ih =>
    cases c with
    | zero => simpa [markFirstCandidates_zero] using hn
    | succ c =>
      cases i with
      | zero =>
        simp only [List.getElem?_cons_zero, Option.some.injEq] at hn
        subst hn
        simp [markFirstCandidates, hp]
      | succ i =>
        simp only [List.getElem?_cons_succ] at hn
        by_cases hm : p m = true <;> simp [markFirstCandidates, hm, ih c i hn, ih (c + 1) i hn]

/-- Pointwise facts about marking a candidate node with the before-reboot
label. -/
theorem candidate_mark_facts (bAnns : List String) (n : Node)
    (h : candidateForReboot n = true) :
    beforeRebootReq n = false ∧
    beforeRebootReq (markClosure labelBeforeReboot bAnns n) = true ∧
    afterRebootReq (markClosure labelBeforeReboot bAnns n) = afterRebootReq n ∧
    stillRebootingSelector n.annotations = false ∧
    stillRebootingSelector (markClosure labelBeforeReboot bAnns n).annotations = false ∧
    candidateForReboot (markClosure labelBeforeReboot bAnns n) = false := by
  simp only [candidateForReboot, rebootableSelector, notBeforeRebootReq, beforeRebootReq,
    labelIsTrue, Bool.and_eq_true, Bool.not_eq_true', beq_iff_eq, beq_eq_false_iff_ne,
    ne_eq] at h
  obtain ⟨⟨⟨⟨hneed, hpause⟩, hok⟩, hprog⟩, hlbl⟩ := h
  refine ⟨?_, ?_, ?_, ?_, ?_, ?_⟩
  · simp [beforeRebootReq, labelIsTrue, hlbl]
  · simp [beforeRebootReq, labelIsTrue]
  · simp [afterRebootReq, labelIsTrue]
  · simp [stillRebootingSelector, hok]
  · simp only [markClosure_annotations, stillRebootingSelector, fieldGet_delAll]
    by_cases hmem : annOkToReboot ∈ bAnns <;> simp [hmem, hok]
  · simp [candidateForReboot, notBeforeRebootReq, beforeRebootReq, labelIsTrue]

/-- The still-rebooting count is unchanged by marking candidates. -/
theorem countP_still_markFirstCandidates (bAnns : List String) (c : Nat) (s : List Node) :
    (markFirstCandidates candidateForReboot (markClosure labelBeforeReboot bAnns) c
        s).countP (fun n => stillRebootingSelector n.annotations) =
      s.countP (fun n => stillRebootingSelector n.annotations) := by
  induction s generalizing c with
  | nil => cases c <;> rfl
  | cons n s ih =>
    cases c with
    | zero => rw [markFirstCandidates_zero]
    | succ c =>
      cases hp : candidateForReboot n with
      | true =>
        obtain ⟨-, -, -, h4, h5, -⟩ := candidate_mark_facts bAnns n hp
        have h5' : stillRebootingSelector (delAll n.annotations bAnns) = false := by
          simpa using h5
        simp [markFirstCandidates, hp, List.countP_cons, h4, h5', ih]
      | false => simp [markFirstCandidates, hp, List.countP_cons, ih]

/-- The after-reboot-labelled count is unchanged by marking candidates. -/
theorem countP_after_markFirstCandidates (bAnns : List String) (c : Nat) (s : List Node) :
    (markFirstCandidates candidateForReboot (markClosure labelBeforeReboot bAnns) c
        s).countP afterRebootReq = s.countP afterRebootReq := by
  induction s generalizing c with
  | nil => cases c <;> rfl
  | cons n s ih =>
    cases c with
    | zero => rw [markFirstCandidates_zero]
    | succ c =>
      cases hp : candidateForReboot n with
      | true =>
        obtain ⟨-, -, h3, -, -, -⟩ := candidate_mark_facts bAnns n hp
        simp [markFirstCandidates, hp, List.countP_cons, h3, ih]
      | false => simp [markFirstCandidates, hp, List.countP_cons, ih]

/-- Marking candidates raises the before-reboot-labelled count by exactly
the number of marked nodes. -/
theorem countP_before_markFirstCandidates (bAnns : List String) (c : Nat) (s : List Node) :
    (markFirstCandidates candidateForReboot (markClosure labelBeforeReboot bAnns) c
        s).countP beforeRebootReq =
      s.countP beforeRebootReq + min c (s.countP candidateForReboot) := by
  induction s generalizing c with
  | nil => cases c <;> simp [markFirstCandidates]
  | cons n s ih =>
    cases c with
    | zero => simp [markFirstCandidates_zero]
    | succ c =>
      cases hp : candidateForReboot n with
      | true =>
        obtain ⟨h1, h2, -, -, -, -⟩ := candidate_mark_facts bAnns n hp
        simp only [markFirstCandidates, hp, if_true, List.countP_cons, h1, h2, ih]
        simp only [Bool.false_eq_true, if_false, if_pos rfl]
        omega
      | false =>
        simp only [markFirstCandidates, hp, Bool.false_eq_true, if_false,
          List.countP_cons, ih]
        omega

/-- Marking candidates lowers the candidate count by exactly the number of
marked nodes. -/
theorem countP_candidate_markFirstCandidates (bAnns : List String) (c : Nat) (s : List Node) :
    (markFirstCandidates candidateForReboot (markClosure labelBeforeReboot bAnns) c
        s).countP candidateForReboot =
      s.countP candidateForReboot - min c (s.countP candidateForReboot) := by
  induction s generalizing c with
  | nil => cases c <;> simp [markFirstCandidates]
  | cons n s ih =>
    cases c with
    | zero => simp [markFirstCandidates_zero]
    | succ c =>
      cases hp : candidateForReboot n with
      | true =>
        obtain ⟨-, -, -, -, -, h6⟩ := candidate_mark_facts bAnns n hp
        simp only [markFirstCandidates, hp, if_true, List.countP_cons, h6, ih]
        simp only [hp, Bool.false_eq_true, if_false, if_pos rfl]
        omega
      | false =>
        simp only [markFirstCandidates, hp, Bool.false_eq_true, if_false,
          List.countP_cons, ih]
        omega

/-- The multiset rebooting count, as a sum of `countP`s. -/
theorem rebootingCountMultiset_eq (s : List Node) :
    rebootingCountMultiset s =
      s.countP (fun n => stillRebootingSelector n.annotations) +
      s.countP beforeRebootReq + s.countP afterRebootReq := by
  simp [rebootingCountMultiset, filterNodesByAnnSel, filterNodesByRequirement,
    List.countP_eq_length_filter]

/-- The union count never exceeds the multiset count. -/
theorem rebootingUnionCount_le_multiset (s : List Node) :
    rebootingUnionCount s ≤ rebootingCountMultiset s := by
  rw [rebootingCountMultiset_eq]
  unfold rebootingUnionCount
  induction s with
  | nil => simp
  | cons n s ih =>
    simp only [List.countP_cons]
    cases h1 : stillRebootingSelector n.annotations <;>
      cases h2 : beforeRebootReq n <;>
      cases h3 : afterRebootReq n <;>
      simp [h1, h2, h3] <;> omega

/-- `remainingRebootingCapacity` in terms of the multiset rebooting count. -/
theorem remainingCapacity_eq (k : Kontroller) (s : List Node) :
    remainingRebootingCapacity k s =
      k.maxRebootingNodes - (rebootingCountMultiset s : Int) := by
  unfold remainingRebootingCapacity rebootingCountMultiset
  simp [List.length_append]
  omega

/-- Marking candidates raises the multiset rebooting count by exactly the
number of marked nodes. -/
theorem rebootingCountMultiset_markFirstCandidates (bAnns : List String)
    (c : Nat) (s : List Node) :
    rebootingCountMultiset
        (markFirstCandidates candidateForReboot (markClosure labelBeforeReboot bAnns) c s) =
      rebootingCountMultiset s + min c (s.countP candidateForReboot) := by
  rw [rebootingCountMultiset_eq, rebootingCountMultiset_eq,
    countP_still_markFirstCandidates, countP_after_markFirstCandidates,
    countP_before_markFirstCandidates]
  omega

/-- Deleting from a nil map leaves it nil. -/
theorem odelAll_none (ks : List String) : odelAll none ks = none := by
  induction ks with
  | nil => rfl
  | cons a ks ih => simpa [odelAll, odel] using ih

/-- Deleting from a present map keeps it present. -/
theorem odelAll_some (m : SMap) (ks : List String) :
    odelAll (some m) ks = some (delAll m ks) := by
  induction ks generalizing m with
  | nil => rfl
  | cons a ks ih => simpa [odelAll, odel, delAll] using ih (adel m a)

/-- Phase B is the map of its per-node step. -/
theorem checkAfterReboot_eq_map (k : Kontroller) (s : List Node) :
    checkAfterReboot k s = s.map (checkAfterStep k) := rfl

/-- Phase C is the map of its per-node step. -/
theorem markAfterReboot_eq_map (k : Kontroller) (s : List Node) :
    markAfterReboot k s = s.map (markAfterStep k) := rfl

/-- Phase D is the map of its per-node step. -/
theorem checkBeforeReboot_eq_map (k : Kontroller) (s : List Node) :
    checkBeforeReboot k s = s.map (checkBeforeStep k) := rfl

/-- Phases A through D compose into one map. -/
theorem phasesABCD_eq_map (k : Kontroller) (s : List Node) :
    checkBeforeReboot k (markAfterReboot k (checkAfterReboot k (cleanupState k s))) =
      s.map (tickStepABCD k) := by
  rw [cleanupState, checkAfterReboot_eq_map, markAfterReboot_eq_map,
    checkBeforeReboot_eq_map, List.map_map, List.map_map, List.map_map]
  rfl

/-- A map that fixes every member of a list fixes the list. -/
theorem map_eq_self_of_fix {f : Node → Node} {l : List Node}
    (h : ∀ n ∈ l, f n = n) : l.map f = l := by
  induction l with
  | nil => rfl
  | cons n l ih =>
    simp only [List.map_cons, h n (by simp), List.cons.injEq, true_and]
    exact ih (fun m hm => h m (by simp [hm]))

/-- `rebootableSelector` survives deleting keys other than `reboot-needed`. -/
theorem reb_delAll_pres (m : SMap) (ks : List String)
    (hne : annRebootNeeded ∉ ks) (h : rebootableSelector m = true) :
    rebootableSelector (delAll m ks) = true := by
  simp only [rebootableSelector, Bool.and_eq_true, Bool.not_eq_true', beq_iff_eq,
    beq_eq_false_iff_ne, ne_eq, fieldGet_delAll] at h ⊢
  obtain ⟨⟨⟨h1, h2⟩, h3⟩, h4⟩ := h
  refine ⟨⟨⟨by simp [hne, h1], ?_⟩, ?_⟩, ?_⟩ <;> split_ifs <;> simp_all

/-- `rebootableSelector` survives setting `ok-to-reboot` to `"false"`. -/
theorem reb_aset_ok_false_pres (m : SMap) (h : rebootableSelector m = true) :
    rebootableSelector (aset m annOkToReboot "false") = true := by
  simp only [rebootableSelector, Bool.and_eq_true, Bool.not_eq_true', beq_iff_eq,
    beq_eq_false_iff_ne, ne_eq, fieldGet_aset] at h ⊢
  obtain ⟨⟨⟨h1, h2⟩, h3⟩, h4⟩ := h
  simp_all

/-- A nonempty annotation list cannot be all-`"true"` right after every one
of its keys was deleted. -/
theorem hasAllMap_delAll_self (m : SMap) (ks : List String) (h : ks ≠ []) :
    (ks.all fun a => aget (delAll m ks) a == some "true") = false := by
  cases ks with
  | nil => exact absurd rfl h
  | cons a ks => simp [List.all_cons, aget_delAll]

/-- If every key of `A` reads `"true"` after deletions, it already did. -/
theorem hasAllMap_of_delAll (m : SMap) (ks A : List String)
    (h : (A.all fun a => aget (delAll m ks) a == some "true") = true) :
    (A.all fun a => aget m a == some "true") = true := by
  rw [List.all_eq_true] at h ⊢
  intro a ha
  have h' := h a ha
  simp only [aget_delAll] at h'
  split_ifs at h' with hm
  · simp at h'
  · exact h'

/-- If every key of `A` reads `"true"` after an assignment that cannot put
`"true"` on a key of `A`, it already did. -/
theorem hasAllMap_of_aset (m : SMap) (k0 v : String) (A : List String)
    (hcase : v = "true" → k0 ∉ A)
    (h : (A.all fun a => aget (aset m k0 v) a == some "true") = true) :
    (A.all fun a => aget m a == some "true") = true := by
  rw [List.all_eq_true] at h ⊢
  intro a ha
  have h' := h a ha
  simp only [aget_aset] at h'
  split_ifs at h' with hm
  · simp only [beq_iff_eq, Option.some.injEq] at h'
    exact absurd (hm ▸ ha) (hcase h')
  · exact h'

/-- A node whose `ok-to-reboot` is not `"true"` is not just-rebooted. -/
theorem jr_false_of_ok (m : SMap) (h : ¬fieldGet m annOkToReboot = "true") :
    justRebootedSelector m = false := by
  have hb : (fieldGet m annOkToReboot == "true") = false := by
    simpa [beq_eq_false_iff_ne] using h
  simp [justRebootedSelector, hb]

/-- Deletions cannot make a node just-rebooted when `ok-to-reboot` was not
`"true"`. -/
theorem jr_false_delAll_of_ok (m : SMap) (ks : List String)
    (h : ¬fieldGet m annOkToReboot = "true") :
    justRebootedSelector (delAll m ks) = false := by
  apply jr_false_of_ok
  simp only [fieldGet_delAll]
  split_ifs
  · simp
  · exact h

/-- A node whose `reboot-needed` is `"true"` stays not-just-rebooted after
deleting keys other than `reboot-needed` and setting `ok-to-reboot`. -/
theorem jr_false_needed_true (m : SMap) (ks : List String) (v : String)
    (hne : annRebootNeeded ∉ ks) (h : fieldGet m annRebootNeeded = "true") :
    justRebootedSelector (aset (delAll m ks) annOkToReboot v) = false := by
  simp [justRebootedSelector, fieldGet_aset, fieldGet_delAll, hne, h]

/-- After phase A's closure, a node whose `before-reboot` label key is
present is rebootable. -/
theorem cleanup_establishes (bAnns : List String) (n : Node) :
    (aget (cleanupStateClosure bAnns n).labels labelBeforeReboot).isSome = true →
    rebootableSelector (cleanupStateClosure bAnns n).annotations = true := by
  unfold cleanupStateClosure
  split_ifs with h1 h2
  · intro hs
    rw [Option.isNone_iff_eq_none] at h1
    simp [h1] at hs
  · intro _
    exact h2
  · intro hs
    simp only [aget_adel, if_pos rfl] at hs
    simp at hs

/-- Phase B's per-node step preserves the `before-reboot` label and
rebootability, and leaves every `after-reboot`-labelled node with an
unsatisfied after-hook gate. -/
theorem checkAfterStep_facts (k : Kontroller) (n : Node)
    (H4 : annRebootNeeded ∉ k.afterRebootAnnotations) :
    aget (checkAfterStep k n).labels labelBeforeReboot =
      aget n.labels labelBeforeReboot ∧
    (rebootableSelector n.annotations = true →
      rebootableSelector (checkAfterStep k n).annotations = true) ∧
    (labelIsTrue (checkAfterStep k n).labels labelAfterReboot = true →
      hasAllAnnotations (checkAfterStep k n) k.afterRebootAnnotations = false) := by
  unfold checkAfterStep
  cases hc : (labelIsTrue n.labels labelAfterReboot &&
      hasAllAnnotations n k.afterRebootAnnotations) with
  | false =>
    simp only [Bool.false_eq_true, if_false]
    refine ⟨trivial, fun h => h, ?_⟩
    intro hl
    rcases Bool.and_eq_false_iff.mp hc with h | h
    · rw [hl] at h
      exact absurd h (by simp)
    · exact h
  | true =>
    simp only [if_true]
    refine ⟨by simp, ?_, ?_⟩
    · intro h
      simp only [checkRebootClosure_annotations]
      exact reb_aset_ok_false_pres _ (reb_delAll_pres _ _ H4 h)
    · intro hl
      simp only [checkRebootClosure_labels, labelIsTrue, aget_adel] at hl
      simp at hl

/-- Phase C's per-node step preserves the `before-reboot` label and
rebootability, keeps the after-hook gate of labelled nodes unsatisfied, and
leaves every unlabelled node not-just-rebooted. -/
theorem markAfterStep_facts (k : Kontroller) (n : Node)
    (H2 : k.afterRebootAnnotations ≠ [])
    (H4 : annRebootNeeded ∉ k.afterRebootAnnotations)
    (hP3 : labelIsTrue n.labels labelAfterReboot = true →
      hasAllAnnotations n k.afterRebootAnnotations = false) :
    aget (markAfterStep k n).labels labelBeforeReboot =
      aget n.labels labelBeforeReboot ∧
    (rebootableSelector n.annotations = true →
      rebootableSelector (markAfterStep k n).annotations = true) ∧
    (labelIsTrue (markAfterStep k n).labels labelAfterReboot = true →
      hasAllAnnotations (markAfterStep k n) k.afterRebootAnnotations = false) ∧
    (labelIsTrue (markAfterStep k n).labels labelAfterReboot = false →
      justRebootedSelector (markAfterStep k n).annotations = false) := by
  unfold markAfterStep
  cases hc : (!(labelIsTrue n.labels labelAfterReboot) &&
      justRebootedSelector n.annotations) with
  | false =>
    simp only [Bool.false_eq_true, if_false]
    refine ⟨trivial, fun h => h, hP3, ?_⟩
    intro hl
    rcases Bool.and_eq_false_iff.mp hc with h | h
    · have hlt : labelIsTrue n.labels labelAfterReboot = true := by
        revert h
        cases labelIsTrue n.labels labelAfterReboot <;> simp
      rw [hlt] at hl
      exact absurd hl (by simp)
    · exact h
  | true =>
    simp only [if_true]
    refine ⟨by simp, ?_, ?_, ?_⟩
    · intro h
      simp only [markClosure_annotations]
      exact reb_delAll_pres _ _ H4 h
    · intro _
      unfold hasAllAnnotations
      simp only [markClosure_annotations]
      exact hasAllMap_delAll_self _ _ H2
    · intro hl
      simp only [markClosure_labels, labelIsTrue] at hl
      simp at hl

/-- Phase D's per-node step produces a node on which every phase guard of
the next tick is closed. -/
theorem checkBeforeStep_facts (k : Kontroller) (n : Node)
    (H3 : annRebootNeeded ∉ k.beforeRebootAnnotations)
    (H5 : annOkToReboot ∉ k.afterRebootAnnotations)
    (hP1 : (aget n.labels labelBeforeReboot).isSome = true →
      rebootableSelector n.annotations = true)
    (hP3 : labelIsTrue n.labels labelAfterReboot = true →
      hasAllAnnotations n k.afterRebootAnnotations = false)
    (hP4 : labelIsTrue n.labels labelAfterReboot = false →
      justRebootedSelector n.annotations = false) :
    phaseFixed k (checkBeforeStep k n) := by
  unfold checkBeforeStep phaseFixed
  cases hc : (labelIsTrue n.labels labelBeforeReboot &&
      hasAllAnnotations n k.beforeRebootAnnotations) with
  | false =>
    simp only [Bool.false_eq_true, if_false]
    refine ⟨hP1, ?_, hP3, hP4⟩
    intro hl
    rcases Bool.and_eq_false_iff.mp hc with h | h
    · rw [hl] at h
      exact absurd h (by simp)
    · exact h
  | true =>
    have hc' := hc
    rw [Bool.and_eq_true] at hc'
    obtain ⟨hlbl, hhas⟩ := hc'
    have hreb : rebootableSelector n.annotations = true := by
      apply hP1
      simp only [labelIsTrue, beq_iff_eq] at hlbl
      simp [hlbl]
    have hneed : fieldGet n.annotations annRebootNeeded = "true" := by
      have h' := hreb
      simp only [rebootableSelector, Bool.and_eq_true, beq_iff_eq] at h'
      exact h'.1.1.1
    simp only [if_true]
    refine ⟨?_, ?_, ?_, ?_⟩
    · intro hs
      simp only [checkRebootClosure_labels, aget_adel, if_pos rfl] at hs
      simp at hs
    · intro hl
      simp only [checkRebootClosure_labels, labelIsTrue, aget_adel] at hl
      simp at hl
    · intro hl
      have hl' : labelIsTrue n.labels labelAfterReboot = true := by
        simpa [labelIsTrue] using hl
      have hn3 := hP3 hl'
      unfold hasAllAnnotations at hn3 ⊢
      simp only [checkRebootClosure_annotations]
      cases hall : (k.afterRebootAnnotations.all fun a =>
          aget (aset (delAll n.annotations k.beforeRebootAnnotations)
            annOkToReboot "true") a == some "true") with
      | false => rfl
      | true =>
        exfalso
        have hcontra := hasAllMap_of_delAll _ _ _
          (hasAllMap_of_aset _ _ _ _ (fun _ => H5) hall)
        rw [hn3] at hcontra
        exact absurd hcontra (by simp)
    · intro _
      simp only [checkRebootClosure_annotations]
      exact jr_false_needed_true _ _ _ H3 hneed

/-- Marking a candidate with the `before-reboot` label produces a node on
which every phase guard of the next tick is closed. -/
theorem markClosure_phaseFixed (k : Kontroller) (m : Node)
    (H1 : k.beforeRebootAnnotations ≠ [])
    (H3 : annRebootNeeded ∉ k.beforeRebootAnnotations)
    (hP3 : labelIsTrue m.labels labelAfterReboot = true →
      hasAllAnnotations m k.afterRebootAnnotations = false)
    (hcand : candidateForReboot m = true) :
    phaseFixed k (markClosure labelBeforeReboot k.beforeRebootAnnotations m) := by
  have hreb : rebootableSelector m.annotations = true := by
    have h' := hcand
    rw [candidateForReboot, Bool.and_eq_true] at h'
    exact h'.1
  have hok : ¬fieldGet m.annotations annOkToReboot = "true" := by
    have h' := hreb
    simp only [rebootableSelector, Bool.and_eq_true, Bool.not_eq_true',
      beq_iff_eq, beq_eq_false_iff_ne, ne_eq] at h'
    exact h'.1.2
  refine ⟨?_, ?_, ?_, ?_⟩
  · intro _
    simp only [markClosure_annotations]
    exact reb_delAll_pres _ _ H3 hreb
  · intro _
    unfold hasAllAnnotations
    simp only [markClosure_annotations]
    exact hasAllMap_delAll_self _ _ H1
  · intro hl
    have hl' : labelIsTrue m.labels labelAfterReboot = true := by
      simpa [labelIsTrue] using hl
    have h3 := hP3 hl'
    unfold hasAllAnnotations at h3 ⊢
    simp only [markClosure_annotations]
    cases hall : (k.afterRebootAnnotations.all fun a =>
        aget (delAll m.annotations k.beforeRebootAnnotations) a == some "true") with
    | false => rfl
    | true =>
      exfalso
      have hcontra := hasAllMap_of_delAll _ _ _ hall
      rw [h3] at hcontra
      exact absurd hcontra (by simp)
  · intro _
    simp only [markClosure_annotations]
    exact jr_false_delAll_of_ok _ _ hok

/-- Phases A through D of one tick leave every node with all phase guards
closed. -/
theorem tickStep_phaseFixed (k : Kontroller)
    (H2 : k.afterRebootAnnotations ≠ [])
    (H3 : annRebootNeeded ∉ k.beforeRebootAnnotations)
    (H4 : annRebootNeeded ∉ k.afterRebootAnnotations)
    (H5 : annOkToReboot ∉ k.afterRebootAnnotations) (n : Node) :
    phaseFixed k (tickStepABCD k n) := by
  unfold tickStepABCD
  have F1 := cleanup_establishes k.beforeRebootAnnotations n
  obtain ⟨b1, b2, b3⟩ :=
    checkAfterStep_facts k (cleanupStateClosure k.beforeRebootAnnotations n) H4
  have F2 : (aget (checkAfterStep k (cleanupStateClosure k.beforeRebootAnnotations
      n)).labels labelBeforeReboot).isSome = true →
      rebootableSelector (checkAfterStep k (cleanupStateClosure
        k.beforeRebootAnnotations n)).annotations = true := by
    intro hs
    rw [b1] at hs
    exact b2 (F1 hs)
  obtain ⟨c1, c2, c3, c4⟩ := markAfterStep_facts k
    (checkAfterStep k (cleanupStateClosure k.beforeRebootAnnotations n)) H2 H4 b3
  have F3 : (aget (markAfterStep k (checkAfterStep k (cleanupStateClosure
      k.beforeRebootAnnotations n))).labels labelBeforeReboot).isSome = true →
      rebootableSelector (markAfterStep k (checkAfterStep k (cleanupStateClosure
        k.beforeRebootAnnotations n))).annotations = true := by
    intro hs
    rw [c1] at hs
    exact c2 (F2 hs)
  exact checkBeforeStep_facts k _ H3 H5 F3 c3 c4

/-- On a node with all phase guards closed, each per-node phase action is
the identity. -/
theorem steps_fixed_of_phaseFixed (k : Kontroller) (m : Node)
    (h : phaseFixed k m) :
    cleanupStateClosure k.beforeRebootAnnotations m = m ∧
    checkAfterStep k m = m ∧ markAfterStep k m = m ∧ checkBeforeStep k m = m := by
  obtain ⟨h1, h2, h3, h4⟩ := h
  refine ⟨?_, ?_, ?_, ?_⟩
  · unfold cleanupStateClosure
    split_ifs with ha hb
    · rfl
    · rfl
    · exfalso
      apply hb
      apply h1
      cases hx : aget m.labels labelBeforeReboot with
      | none => exact absurd (by simp [hx]) ha
      | some v => simp [hx]
  · unfold checkAfterStep
    cases hl : labelIsTrue m.labels labelAfterReboot with
    | false => simp [hl]
    | true => simp [hl, h3 hl]
  · unfold markAfterStep
    cases hl : labelIsTrue m.labels labelAfterReboot with
    | false => simp [hl, h4 hl]
    | true => simp [hl]
  · unfold checkBeforeStep
    cases hl : labelIsTrue m.labels labelBeforeReboot with
    | false => simp [hl]
    | true => simp [hl, h2 hl]

/-- On a node with all phase guards closed, phases A through D compose to
the identity. -/
theorem tickStep_fixed (k : Kontroller) (m : Node) (h : phaseFixed k m) :
    tickStepABCD k m = m := by
  obtain ⟨e1, e2, e3, e4⟩ := steps_fixed_of_phaseFixed k m h
  unfold tickStepABCD
  rw [e1, e2, e3, e4]

/-- When phase E returns without fault, the totalized `markBeforeReboot`
computes the same node list. -/
theorem markBeforeReboot_agrees_of_ok (k : Kontroller) (now : Int)
    (s t : List Node) (h : markBeforeRebootGo k now s = some t) :
    markBeforeReboot k now s = t := by
  unfold markBeforeRebootGo at h
  unfold markBeforeReboot
  cases hin : insideRebootWindow k now with
  | false =>
    rw [hin] at h
    simp only [Bool.not_false, if_true] at h ⊢
    exact Option.some.injEq _ _ ▸ (by simpa using h)
  | true =>
    rw [hin] at h
    simp only [Bool.not_true, Bool.false_eq_true, if_false] at h ⊢
    unfold rebootableNodesGo at h
    by_cases hneg : remainingRebootingCapacity k s < 0
    · rw [if_pos hneg] at h
      exact absurd h (by simp)
    · rw [if_neg hneg] at h
      simpa using h

/-- When phase E faults (negative capacity inside the window), no mutation
was applied, so the node states equal the totalized model's mark-nothing
outcome. -/
theorem markBeforeReboot_agrees_of_fault (k : Kontroller) (now : Int)
    (s : List Node) (h : markBeforeRebootGo k now s = none) :
    markBeforeReboot k now s = s := by
  unfold markBeforeRebootGo at h
  cases hin : insideRebootWindow k now with
  | false =>
    rw [hin] at h
    simp at h
  | true =>
    rw [hin] at h
    simp only [Bool.not_true, Bool.false_eq_true, if_false] at h
    unfold rebootableNodesGo at h
    by_cases hneg : remainingRebootingCapacity k s < 0
    · have h0 : (remainingRebootingCapacity k s).toNat = 0 :=
        Int.toNat_of_nonpos (le_of_lt hneg)
      unfold markBeforeReboot
      rw [hin]
      simp only [Bool.not_true, Bool.false_eq_true, if_false, h0]
      exact markFirstCandidates_zero _ _ _
    · rw [if_neg hneg] at h
      exact absurd h (by simp)

/-! ### Claim theorems -/

/-- C4: for every node and every mutation closure of the engine
(`cleanupState`, `checkReboot`, `mark`), the annotation keys `reboot-needed`,
`reboot-in-progress` and `reboot-paused` are left unchanged, the configured
hook-annotation lists being the administrator-chosen keys (which exclude the
operator-owned ones). -/
theorem C4_reserved_keys_not_written (bAnns : List String)
    (opt : CheckRebootOptions) (lbl : String) (mAnns : List String)
    (n : Node) (key : String)
    (hkey : key = annRebootNeeded ∨ key = annRebootInProgress ∨ key = annRebootPaused)
    (h1 : key ∉ bAnns) (h2 : key ∉ opt.annotations) (h3 : key ∉ mAnns) :
    aget (cleanupStateClosure bAnns n).annotations key = aget n.annotations key ∧
    aget (checkRebootClosure opt n).annotations key = aget n.annotations key ∧
    aget (markClosure lbl mAnns n).annotations key = aget n.annotations key := by
  have hok : ¬key = annOkToReboot := by
    rcases hkey with h | h | h <;> subst h <;> simp
  refine ⟨?_, ?_, ?_⟩
  · unfold cleanupStateClosure
    split_ifs <;> simp [h1]
  · simp [h2, hok]
  · simp [h3]

/-- C4 witness: the three closures at a concrete node and key. -/
theorem C4_witness :
    (annRebootNeeded = annRebootNeeded ∨ annRebootNeeded = annRebootInProgress ∨
        annRebootNeeded = annRebootPaused) ∧
      annRebootNeeded ∉ kWithHooks.beforeRebootAnnotations ∧
      annRebootNeeded ∉ (["g1"] : List String) ∧
      (aget (cleanupStateClosure kWithHooks.beforeRebootAnnotations
          nodeRebootCancelled).annotations annRebootNeeded =
        aget nodeRebootCancelled.annotations annRebootNeeded ∧
      aget (checkRebootClosure ⟨labelBeforeReboot, ["g1"], "true"⟩
          nodeRebootCancelled).annotations annRebootNeeded =
        aget nodeRebootCancelled.annotations annRebootNeeded ∧
      aget (markClosure labelBeforeReboot ["g1"]
          nodeRebootCancelled).annotations annRebootNeeded =
        aget nodeRebootCancelled.annotations annRebootNeeded) :=
  ⟨Or.inl rfl, by decide, by decide,
    C4_reserved_keys_not_written kWithHooks.beforeRebootAnnotations
      ⟨labelBeforeReboot, ["g1"], "true"⟩ labelBeforeReboot ["g1"]
      nodeRebootCancelled annRebootNeeded (Or.inl rfl)
      (by decide) (by decide) (by decide)⟩

/-- C5: with a configured reboot window, whenever the current time is not
inside the most recently opened window phase E leaves the node list
untouched, so no node acquires the `before-reboot` label; with no window
configured, `insideRebootWindow` is always `true`. -/
theorem C5_reboot_window_gate (k : Kontroller) (now : Int) (s : List Node) :
    (∀ w, k.rebootWindow = some w → w.previousEnd now ≤ now →
      markBeforeReboot k now s = s) ∧
    (k.rebootWindow = none → insideRebootWindow k now = true) := by
  constructor
  · intro w hw hend
    have hin : insideRebootWindow k now = false := by
      simp only [insideRebootWindow, hw, decide_eq_false_iff_not]
      omega
    simp [markBeforeReboot, hin]
  · intro hw
    simp [insideRebootWindow, hw]

/-- C5 witness: at time 5 the `windowZero` window (ending at 0) blocks
phase E, and an unconfigured window admits. -/
theorem C5_witness :
    (kWindowed.rebootWindow = some windowZero ∧ windowZero.previousEnd 5 ≤ 5 ∧
      markBeforeReboot kWindowed 5 [nodeRebootable] = [nodeRebootable]) ∧
    (kNoHooks.rebootWindow = none ∧ insideRebootWindow kNoHooks 5 = true) :=
  ⟨⟨rfl, by decide,
    (C5_reboot_window_gate kWindowed 5 [nodeRebootable]).1 windowZero rfl (by decide)⟩,
   ⟨rfl, (C5_reboot_window_gate kNoHooks 5 [nodeRebootable]).2 rfl⟩⟩

/-- C6 counterexample: at `max-rebooting = 1`, one before-reboot-labelled
node plus one after-reboot-labelled node give remaining capacity `−1`, and
phase E inside the window then panics in `rebootableNodes`
(`make([]*corev1.Node, 0, −1)`) instead of returning the unchanged node
list without error. -/
theorem C6_counterexample :
    insideRebootWindow kNoHooks 0 = true ∧
    remainingRebootingCapacity kNoHooks [nodeBeforeLabelled, nodeAfterLabelled] ≤ 0 ∧
    markBeforeRebootGo kNoHooks 0 [nodeBeforeLabelled, nodeAfterLabelled] ≠
      some [nodeBeforeLabelled, nodeAfterLabelled] := by
  decide

/-- C6 amended: when the remaining rebooting capacity is exactly zero,
phase E inside the reboot window selects no candidate, modifies no node and
returns without error; when the capacity is negative, phase E panics in
`rebootableNodes` before modifying any node, instead of returning. -/
theorem C6_amended_capacity_gate (k : Kontroller) (now : Int) (s : List Node)
    (hin : insideRebootWindow k now = true) :
    (remainingRebootingCapacity k s = 0 →
      rebootableNodesGo k s = some [] ∧ markBeforeRebootGo k now s = some s) ∧
    (remainingRebootingCapacity k s < 0 →
      rebootableNodesGo k s = none ∧ markBeforeRebootGo k now s = none) := by
  constructor
  · intro hcap
    have h0 : (remainingRebootingCapacity k s).toNat = 0 := by
      rw [hcap]
      rfl
    have hgo : rebootableNodesGo k s = some [] := by
      unfold rebootableNodesGo
      rw [hcap]
      simp [h0]
    refine ⟨hgo, ?_⟩
    unfold markBeforeRebootGo
    rw [hin, hgo]
    simp [h0, markFirstCandidates_zero]
  · intro hcap
    have hgo : rebootableNodesGo k s = none := by
      unfold rebootableNodesGo
      rw [if_pos hcap]
    refine ⟨hgo, ?_⟩
    unfold markBeforeRebootGo
    rw [hin, hgo]
    simp

/-- C6 witness: one still-rebooting node makes capacity exactly zero, and a
rebootable node is then neither selected nor marked, without error. -/
theorem C6_witness :
    (insideRebootWindow kNoHooks 0 = true ∧
      remainingRebootingCapacity kNoHooks [nodeStillRebooting, nodeRebootable] = 0) ∧
    (rebootableNodesGo kNoHooks [nodeStillRebooting, nodeRebootable] = some [] ∧
      markBeforeRebootGo kNoHooks 0 [nodeStillRebooting, nodeRebootable] =
        some [nodeStillRebooting, nodeRebootable]) :=
  ⟨⟨rfl, by decide⟩,
    (C6_amended_capacity_gate kNoHooks 0 [nodeStillRebooting, nodeRebootable]
      rfl).1 (by decide)⟩

/-- C7 counterexample: with `max-rebooting = 3` and a single node that
carries both operator labels and matches `stillRebootingSelector`, the code
computes capacity `0` (the node is counted three times), not the
`3 - 1 = 2` that the set-union reading of the claim demands. -/
theorem C7_counterexample :
    remainingRebootingCapacity kMax3 [nodeBothLabelsStill] ≠
      kMax3.maxRebootingNodes - (rebootingUnionCount [nodeBothLabelsStill] : Int) := by
  decide

/-- C7 amended: the remaining rebooting capacity is `max-rebooting` minus
the *multiset* count of the three node lists (still-rebooting,
before-reboot-labelled, after-reboot-labelled) — a node in several lists is
counted once per list — and is therefore at most `max-rebooting` minus the
set-union count. -/
theorem C7_amended_capacity_multiset (k : Kontroller) (s : List Node) :
    remainingRebootingCapacity k s =
      k.maxRebootingNodes - (rebootingCountMultiset s : Int) ∧
    remainingRebootingCapacity k s ≤
      k.maxRebootingNodes - (rebootingUnionCount s : Int) := by
  have h1 := remainingCapacity_eq k s
  have h2 := rebootingUnionCount_le_multiset s
  omega

/-- C10: the `checkReboot` closure unconditionally assigns the
`ok-to-reboot` annotation and the `mark` closure unconditionally assigns
the phase label, so each update faults on a fetched node whose
corresponding map is nil, and succeeds whenever the map is present. -/
theorem C10_nil_map_fault (opt : CheckRebootOptions) (lbl : String)
    (anns : List String) (n : GoNode) :
    (n.annotations = none → checkRebootClosureGo opt n = none) ∧
    (∀ m, n.annotations = some m → (checkRebootClosureGo opt n).isSome = true) ∧
    (n.labels = none → markClosureGo lbl anns n = none) ∧
    (∀ m, n.labels = some m → (markClosureGo lbl anns n).isSome = true) := by
  refine ⟨?_, ?_, ?_, ?_⟩
  · intro h
    simp [checkRebootClosureGo, h, odelAll_none]
  · intro m h
    simp [checkRebootClosureGo, h, odelAll_some]
  · intro h
    simp [markClosureGo, h]
  · intro m h
    simp [markClosureGo, h]

/-- C10 witness: the two closures at a node with nil maps and at a node
with present maps. -/
theorem C10_witness :
    (gnodeNil.annotations = none ∧ checkRebootClosureGo optBefore gnodeNil = none) ∧
    (gnodeFull.annotations = some [] ∧
      (checkRebootClosureGo optBefore gnodeFull).isSome = true) ∧
    (gnodeNil.labels = none ∧ markClosureGo labelBeforeReboot [] gnodeNil = none) ∧
    (gnodeFull.labels = some [] ∧
      (markClosureGo labelBeforeReboot [] gnodeFull).isSome = true) :=
  ⟨⟨rfl, (C10_nil_map_fault optBefore labelBeforeReboot [] gnodeNil).1 rfl⟩,
   ⟨rfl, (C10_nil_map_fault optBefore labelBeforeReboot [] gnodeFull).2.1 [] rfl⟩,
   ⟨rfl, (C10_nil_map_fault optBefore labelBeforeReboot [] gnodeNil).2.2.1 rfl⟩,
   ⟨rfl, (C10_nil_map_fault optBefore labelBeforeReboot [] gnodeFull).2.2.2 [] rfl⟩⟩

/-- C2: for every node carrying the phase label with every configured
annotation equal to `"true"` (trivially so for an empty list), `checkReboot`
applies one update deleting the label and those annotation keys and setting
`ok-to-reboot` to `"true"` in phase D and `"false"` in phase B; a labelled
node missing a configured annotation is left unmodified. -/
theorem C2_checkReboot_updates (k : Kontroller) (s : List Node) (i : Nat)
    (n : Node) (hn : s[i]? = some n) :
    hasAllAnnotations n [] = true ∧
    (labelIsTrue n.labels labelBeforeReboot = true →
      (hasAllAnnotations n k.beforeRebootAnnotations = true →
        (checkBeforeReboot k s)[i]? = some
          { n with
            labels := adel n.labels labelBeforeReboot,
            annotations := aset (delAll n.annotations k.beforeRebootAnnotations)
              annOkToReboot "true" }) ∧
      (hasAllAnnotations n k.beforeRebootAnnotations = false →
        (checkBeforeReboot k s)[i]? = some n)) ∧
    (labelIsTrue n.labels labelAfterReboot = true →
      (hasAllAnnotations n k.afterRebootAnnotations = true →
        (checkAfterReboot k s)[i]? = some
          { n with
            labels := adel n.labels labelAfterReboot,
            annotations := aset (delAll n.annotations k.afterRebootAnnotations)
              annOkToReboot "false" }) ∧
      (hasAllAnnotations n k.afterRebootAnnotations = false →
        (checkAfterReboot k s)[i]? = some n)) := by
  refine ⟨by simp [hasAllAnnotations], ?_, ?_⟩
  · intro hlbl
    constructor
    · intro hall
      simp [checkBeforeReboot, checkReboot, List.getElem?_map, hn, hlbl, hall,
        checkRebootClosure]
    · intro hall
      simp [checkBeforeReboot, checkReboot, List.getElem?_map, hn, hlbl, hall]
  · intro hlbl
    constructor
    · intro hall
      simp [checkAfterReboot, checkReboot, List.getElem?_map, hn, hlbl, hall,
        checkRebootClosure]
    · intro hall
      simp [checkAfterReboot, checkReboot, List.getElem?_map, hn, hlbl, hall]

/-- C2 witness: phase D completes a ready node, deleting its label and hook
annotation and granting `ok-to-reboot=true`. -/
theorem C2_witness :
    ([nodeReadyBefore][0]? = some nodeReadyBefore ∧
      labelIsTrue nodeReadyBefore.labels labelBeforeReboot = true ∧
      hasAllAnnotations nodeReadyBefore kWithHooks.beforeRebootAnnotations = true) ∧
    (checkBeforeReboot kWithHooks [nodeReadyBefore])[0]? = some
      { nodeReadyBefore with
        labels := adel nodeReadyBefore.labels labelBeforeReboot,
        annotations := aset (delAll nodeReadyBefore.annotations
          kWithHooks.beforeRebootAnnotations) annOkToReboot "true" } :=
  ⟨⟨rfl, by decide, by decide⟩,
    ((C2_checkReboot_updates kWithHooks [nodeReadyBefore] 0 nodeReadyBefore
      rfl).2.1 (by decide)).1 (by decide)⟩

/-- C3: phase A removes the `before-reboot` label and every configured
before-reboot annotation key from a labelled node that no longer satisfies
the rebootable predicate, leaving `ok-to-reboot` unchanged; an unlabelled
node, or one still satisfying the predicate, is left unmodified. -/
theorem C3_cleanupState_behavior (k : Kontroller) (s : List Node) (i : Nat)
    (n : Node) (hn : s[i]? = some n)
    (hok : annOkToReboot ∉ k.beforeRebootAnnotations) :
    (aget n.labels labelBeforeReboot = none → (cleanupState k s)[i]? = some n) ∧
    (rebootableSelector n.annotations = true → (cleanupState k s)[i]? = some n) ∧
    (labelIsTrue n.labels labelBeforeReboot = true →
      rebootableSelector n.annotations = false →
      (cleanupState k s)[i]? = some
        { n with
          labels := adel n.labels labelBeforeReboot,
          annotations := delAll n.annotations k.beforeRebootAnnotations } ∧
      aget (delAll n.annotations k.beforeRebootAnnotations) annOkToReboot =
        aget n.annotations annOkToReboot) := by
  refine ⟨?_, ?_, ?_⟩
  · intro h
    simp [cleanupState, List.getElem?_map, hn, cleanupStateClosure, h]
  · intro h
    have hcl : cleanupStateClosure k.beforeRebootAnnotations n = n := by
      unfold cleanupStateClosure
      split_ifs <;> simp_all
    simp [cleanupState, List.getElem?_map, hn, hcl]
  · intro hlbl hreb
    have hlbl' : aget n.labels labelBeforeReboot = some "true" := by
      simpa [labelIsTrue] using hlbl
    constructor
    · simp [cleanupState, List.getElem?_map, hn, cleanupStateClosure, hlbl', hreb]
    · simp [hok]

/-- C3 witness: phase A cleans the cancelled node (label gone, hook
annotation gone) and leaves `ok-to-reboot` at its old value. -/
theorem C3_witness :
    ([nodeRebootCancelled][0]? = some nodeRebootCancelled ∧
      annOkToReboot ∉ kWithHooks.beforeRebootAnnotations ∧
      labelIsTrue nodeRebootCancelled.labels labelBeforeReboot = true ∧
      rebootableSelector nodeRebootCancelled.annotations = false) ∧
    ((cleanupState kWithHooks [nodeRebootCancelled])[0]? = some
      { nodeRebootCancelled with
        labels := adel nodeRebootCancelled.labels labelBeforeReboot,
        annotations := delAll nodeRebootCancelled.annotations
          kWithHooks.beforeRebootAnnotations } ∧
      aget (delAll nodeRebootCancelled.annotations
        kWithHooks.beforeRebootAnnotations) annOkToReboot =
        aget nodeRebootCancelled.annotations annOkToReboot) :=
  ⟨⟨rfl, by decide, by decide, by decide⟩,
    (C3_cleanupState_behavior kWithHooks [nodeRebootCancelled] 0 nodeRebootCancelled
      rfl (by decide)).2.2 (by decide) (by decide)⟩

/-- C9 counterexample: a just-rebooted node is idle (`reboot-needed=false`)
at the start of the tick, yet the tick mutates it: phase C marks it with
the `after-reboot` label. -/
theorem C9_counterexample :
    fieldGet nodeJustRebooted.annotations annRebootNeeded = "false" ∧
    process kNoHooks 0 [nodeJustRebooted] ≠ [nodeJustRebooted] := by
  decide

/-- C9 amended: an idle node (`reboot-needed=false`) that carries no
`before-reboot` label key, whose `after-reboot` label is not `"true"`, and
whose `ok-to-reboot` annotation is not `"true"` is left unchanged by every
phase of a tick. -/
theorem C9_amended_idle_untouched (k : Kontroller) (now : Int)
    (s : List Node) (i : Nat) (n : Node) (hn : s[i]? = some n)
    (hidle : fieldGet n.annotations annRebootNeeded = "false")
    (hnolbl : aget n.labels labelBeforeReboot = none)
    (hafter : labelIsTrue n.labels labelAfterReboot = false)
    (hok : fieldGet n.annotations annOkToReboot ≠ "true") :
    (process k now s)[i]? = some n := by
  have hreb : rebootableSelector n.annotations = false := by
    simp [rebootableSelector, hidle]
  have hJR : justRebootedSelector n.annotations = false := by
    simp [justRebootedSelector, hok]
  have hbt : labelIsTrue n.labels labelBeforeReboot = false := by
    simp [labelIsTrue, hnolbl]
  have hcand : candidateForReboot n = false := by
    simp [candidateForReboot, hreb]
  have s1 : (cleanupState k s)[i]? = some n := by
    simp [cleanupState, List.getElem?_map, hn, cleanupStateClosure, hnolbl]
  have s2 : (checkAfterReboot k (cleanupState k s))[i]? = some n := by
    simp [checkAfterReboot, checkReboot, List.getElem?_map, s1, hafter]
  have s3 : (markAfterReboot k (checkAfterReboot k (cleanupState k s)))[i]? =
      some n := by
    simp [markAfterReboot, List.getElem?_map, s2, hJR]
  have s4 : (checkBeforeReboot k (markAfterReboot k (checkAfterReboot k
      (cleanupState k s))))[i]? = some n := by
    simp [checkBeforeReboot, checkReboot, List.getElem?_map, s3, hbt]
  unfold process markBeforeReboot
  by_cases hin : insideRebootWindow k now = true
  · simp only [hin, Bool.not_true, Bool.false_eq_true, if_false]
    exact markFirstCandidates_getElem_of_not _ _ _ _ i n s4 hcand
  · simp only [Bool.not_eq_true] at hin
    simp only [hin, Bool.not_false, if_true]
    exact s4

/-- C9 witness: a plain idle node crosses a whole tick unchanged. -/
theorem C9_witness :
    ([nodeIdle][0]? = some nodeIdle ∧
      fieldGet nodeIdle.annotations annRebootNeeded = "false" ∧
      aget nodeIdle.labels labelBeforeReboot = none ∧
      labelIsTrue nodeIdle.labels labelAfterReboot = false ∧
      fieldGet nodeIdle.annotations annOkToReboot ≠ "true") ∧
    (process kWithHooks 0 [nodeIdle])[0]? = some nodeIdle :=
  ⟨⟨rfl, by decide, by decide, by decide, by decide⟩,
    C9_amended_idle_untouched kWithHooks 0 [nodeIdle] 0 nodeIdle rfl
      (by decide) (by decide) (by decide) (by decide)⟩

/-- C1: phase E preserves the bound `max-rebooting` on the number of nodes
that are before-reboot-labelled, after-reboot-labelled or still-rebooting,
assuming the bound held before the phase ran. -/
theorem C1_markBeforeReboot_capacity (k : Kontroller) (now : Int) (s : List Node)
    (hpre : (rebootingUnionCount s : Int) ≤ k.maxRebootingNodes) :
    (rebootingUnionCount (markBeforeReboot k now s) : Int) ≤ k.maxRebootingNodes := by
  unfold markBeforeReboot
  by_cases hin : insideRebootWindow k now = true
  · simp only [hin, Bool.not_true, Bool.false_eq_true, if_false]
    by_cases hc : remainingRebootingCapacity k s ≤ 0
    · rw [Int.toNat_of_nonpos hc, markFirstCandidates_zero]
      exact hpre
    · push_neg at hc
      have e1 := remainingCapacity_eq k s
      have e2 := rebootingUnionCount_le_multiset
        (markFirstCandidates candidateForReboot
          (markClosure labelBeforeReboot k.beforeRebootAnnotations)
          (remainingRebootingCapacity k s).toNat s)
      have e3 := rebootingCountMultiset_markFirstCandidates
        k.beforeRebootAnnotations (remainingRebootingCapacity k s).toNat s
      have e4 : ((remainingRebootingCapacity k s).toNat : Int) =
          remainingRebootingCapacity k s := Int.toNat_of_nonneg (le_of_lt hc)
      have e5 : min (remainingRebootingCapacity k s).toNat
          (s.countP candidateForReboot) ≤ (remainingRebootingCapacity k s).toNat :=
        Nat.min_le_left _ _
      omega
  · simp only [Bool.not_eq_true] at hin
    simp only [hin, Bool.not_false, if_true]
    exact hpre

/-- C1 witness: marking the lone rebootable node keeps the rebooting set
within capacity 1. -/
theorem C1_witness :
    (rebootingUnionCount [nodeRebootable] : Int) ≤ kNoHooks.maxRebootingNodes ∧
    (rebootingUnionCount (markBeforeReboot kNoHooks 0 [nodeRebootable]) : Int) ≤
      kNoHooks.maxRebootingNodes :=
  ⟨by decide, C1_markBeforeReboot_capacity kNoHooks 0 [nodeRebootable] (by decide)⟩

/-- C8 counterexample: with empty hook-annotation lists a second tick is
not a no-op — the first tick labels the rebootable node `before-reboot`,
and with no before-reboot hook gate the second tick immediately completes
it (label removed, `ok-to-reboot=true`). -/
theorem C8_counterexample :
    process kNoHooks 0 (process kNoHooks 0 [nodeRebootable]) ≠
      process kNoHooks 0 [nodeRebootable] := by
  decide

/-- C8 amended: with both configured hook-annotation lists nonempty,
neither containing `reboot-needed`, and the after-reboot list not
containing `ok-to-reboot`, running an engine tick twice at one instant
with no external change produces the same node states as running it once. -/
theorem C8_amended_tick_idempotent (k : Kontroller) (now : Int) (s : List Node)
    (H1 : k.beforeRebootAnnotations ≠ []) (H2 : k.afterRebootAnnotations ≠ [])
    (H3 : annRebootNeeded ∉ k.beforeRebootAnnotations)
    (H4 : annRebootNeeded ∉ k.afterRebootAnnotations)
    (H5 : annOkToReboot ∉ k.afterRebootAnnotations) :
    process k now (process k now s) = process k now s := by
  have hproc : ∀ t : List Node, process k now t =
      markBeforeReboot k now (t.map (tickStepABCD k)) := by
    intro t
    unfold process
    rw [phasesABCD_eq_map]
  have hE0 : insideRebootWindow k now = false →
      ∀ t, markBeforeReboot k now t = t := by
    intro h0 t
    unfold markBeforeReboot
    rw [h0]
    simp
  have hE1 : insideRebootWindow k now = true →
      ∀ t, markBeforeReboot k now t =
        markFirstCandidates candidateForReboot
          (markClosure labelBeforeReboot k.beforeRebootAnnotations)
          (remainingRebootingCapacity k t).toNat t := by
    intro h1 t
    unfold markBeforeReboot
    rw [h1]
    simp
  have hfix_all : ∀ n' ∈ process k now s, phaseFixed k n' := by
    intro n' hm
    rw [hproc] at hm
    by_cases hin : insideRebootWindow k now = true
    · rw [hE1 hin] at hm
      rcases mem_markFirstCandidates _ _ _ _ _ hm with h | ⟨q, hq, hcq, rfl⟩
      · rcases List.mem_map.mp h with ⟨a, -, rfl⟩
        exact tickStep_phaseFixed k H2 H3 H4 H5 a
      · rcases List.mem_map.mp hq with ⟨a, -, rfl⟩
        exact markClosure_phaseFixed k _ H1 H3
          (tickStep_phaseFixed k H2 H3 H4 H5 a).2.2.1 hcq
    · have hin' : insideRebootWindow k now = false := by
        revert hin
        cases insideRebootWindow k now <;> simp
      rw [hE0 hin'] at hm
      rcases List.mem_map.mp hm with ⟨a, -, rfl⟩
      exact tickStep_phaseFixed k H2 H3 H4 H5 a
  have hmap : (process k now s).map (tickStepABCD k) = process k now s :=
    map_eq_self_of_fix (fun n hn => tickStep_fixed k n (hfix_all n hn))
  rw [hproc (process k now s), hmap]
  by_cases hin : insideRebootWindow k now = true
  case neg =>
    have hin' : insideRebootWindow k now = false := by
      revert hin
      cases insideRebootWindow k now <;> simp
    exact hE0 hin' _
  case pos =>
    have hsplit : process k now s =
        markFirstCandidates candidateForReboot
          (markClosure labelBeforeReboot k.beforeRebootAnnotations)
          (remainingRebootingCapacity k (s.map (tickStepABCD k))).toNat
          (s.map (tickStepABCD k)) := by
      rw [hproc, hE1 hin]
    by_cases hcap : remainingRebootingCapacity k (s.map (tickStepABCD k)) ≤ 0
    · have h0 : (remainingRebootingCapacity k (s.map (tickStepABCD k))).toNat = 0 :=
        Int.toNat_of_nonpos hcap
      have hs' : process k now s = s.map (tickStepABCD k) := by
        rw [hsplit, h0, markFirstCandidates_zero]
      rw [hE1 hin, hs', h0, markFirstCandidates_zero]
    · push_neg at hcap
      have hc1 : ((remainingRebootingCapacity k (s.map (tickStepABCD k))).toNat : Int) =
          remainingRebootingCapacity k (s.map (tickStepABCD k)) :=
        Int.toNat_of_nonneg (le_of_lt hcap)
      rcases lt_or_ge ((s.map (tickStepABCD k)).countP candidateForReboot)
          ((remainingRebootingCapacity k (s.map (tickStepABCD k))).toNat) with hlt | hge
      · have hz : (process k now s).countP candidateForReboot = 0 := by
          rw [hsplit, countP_candidate_markFirstCandidates]
          omega
        have hnone : ∀ n ∈ process k now s, candidateForReboot n = false := by
          intro n hn
          have hzn := List.countP_eq_zero.mp hz n hn
          revert hzn
          cases candidateForReboot n <;> simp
        rw [hE1 hin]
        exact markFirstCandidates_no_candidate _ _ _ _ hnone
      · have hmc : rebootingCountMultiset (process k now s) =
            rebootingCountMultiset (s.map (tickStepABCD k)) +
              min (remainingRebootingCapacity k (s.map (tickStepABCD k))).toNat
                ((s.map (tickStepABCD k)).countP candidateForReboot) := by
          rw [hsplit, rebootingCountMultiset_markFirstCandidates]
        have hmin : min (remainingRebootingCapacity k (s.map (tickStepABCD k))).toNat
            ((s.map (tickStepABCD k)).countP candidateForReboot) =
            (remainingRebootingCapacity k (s.map (tickStepABCD k))).toNat :=
          Nat.min_eq_left hge
        have hcapD := remainingCapacity_eq k (s.map (tickStepABCD k))
        have hcapP := remainingCapacity_eq k (process k now s)
        have hzero : remainingRebootingCapacity k (process k now s) ≤ 0 := by
          omega
        rw [hE1 hin, Int.toNat_of_nonpos hzero, markFirstCandidates_zero]

/-- C8 witness: with nonempty hook lists `h1`/`g1`, the second tick on the
once-ticked single rebootable node changes nothing. -/
theorem C8_witness :
    (kWithHooks.beforeRebootAnnotations ≠ [] ∧
      kWithHooks.afterRebootAnnotations ≠ [] ∧
      annRebootNeeded ∉ kWithHooks.beforeRebootAnnotations ∧
      annRebootNeeded ∉ kWithHooks.afterRebootAnnotations ∧
      annOkToReboot ∉ kWithHooks.afterRebootAnnotations) ∧
    process kWithHooks 0 (process kWithHooks 0 [nodeRebootable]) =
      process kWithHooks 0 [nodeRebootable] :=
  ⟨⟨by decide, by decide, by decide, by decide, by decide⟩,
    C8_amended_tick_idempotent kWithHooks 0 [nodeRebootable] (by decide)
      (by decide) (by decide) (by decide) (by decide)⟩


end FLUO
